import Mathlib

/-!
Verification of the lionagi agent-execution core against its design
specification.  The development shallowly embeds the Python sources:

* `src/lionagi/os/operator/processor/parallel.py` — the combinatorial
  parallel dispatcher (`ParallelUnit._parallel_chat` and its nested
  helpers `_inner`, `_inner_2`, `_inner_3`, `_inner_3_b`, `_inner_4`);
* `src/lionagi/os/operator/agent/base_agent.py` — the orchestrator
  (`BaseAgent.execute`, `BaseAgent.mail_manager_control`);
* `src/lionagi/core/Agent/Agent.py` — the legacy orchestrator
  (`Start.trigger`, `Agent.execute`, `Agent.mail_manager_control`).

Python values that flow through the dispatcher (instructions, contexts,
chat results) are modelled by the inductive `PyVal`; Python truthiness
and the `x or y` idiom are modelled explicitly, because the dispatcher
uses `ins_ or instruction` / `cxt_ or context` substitutions.
-/

/-- A Python value as used by the dispatcher: `None`, a string, an
integer, a list, or a dict with string keys. -/
inductive PyVal where
  | vnone : PyVal
  | vstr  : String → PyVal
  | vint  : Int → PyVal
  | vlist : List PyVal → PyVal
  | vdict : List (String × PyVal) → PyVal

/-- Python truthiness for the modelled values: `None` is falsy, a string
is truthy iff nonempty, an integer iff nonzero, a list or dict iff
nonempty. -/
def truthy : PyVal → Bool
  | .vnone    => false
  | .vstr s   => !(s == "")
  | .vint n   => !(n == 0)
  | .vlist xs => !xs.isEmpty
  | .vdict es => !es.isEmpty

/-- Python's `a or b`: returns `a` when `a` is truthy, else `b`.  This is
the substitution used at `parallel.py` lines 70-71 and 83-84
(`ins_ or instruction`, `cxt_ or context`). -/
def pyOr (a b : PyVal) : PyVal :=
  if truthy a then a else b

/-- Modelled from the spec: `convert.to_list` (lionagi.libs, not under
`src/`) coerces a scalar-or-ordered-sequence argument to the list of its
elements — a sequence yields its elements, a scalar yields a singleton
(spec §4.4: "instruction: scalar-or-ordered-sequence"). -/
def to_list : PyVal → List PyVal
  | .vlist xs => xs
  | v => [v]

/-- The descriptor pairs produced by one `_inner_2` task
(`parallel.py` lines 92-96): `num_instances` replicas of the same
`(ins_, cxt_)` pair, one per `_inner` task in `range(num_instances)`.
An omitted argument is Python `None` (`PyVal.vnone`). -/
def inner_2_pairs (ins_ cxt_ : PyVal) (num_instances : Nat) :
    List (PyVal × PyVal) :=
  List.replicate num_instances (ins_, cxt_)

/-- The per-task descriptor lists of `_inner_3` (`parallel.py` lines
98-102): one `_inner_2` task per element of `to_list instruction`, the
context argument left as `None`. -/
def inner_3_tasks (instruction : PyVal) (num_instances : Nat) :
    List (List (PyVal × PyVal)) :=
  (to_list instruction).map (fun ins_ => inner_2_pairs ins_ .vnone num_instances)

/-- The per-task descriptor lists of `_inner_3_b` (`parallel.py` lines
104-108): one `_inner_2` task per element of `to_list context`, the
instruction argument left as `None`. -/
def inner_3_b_tasks (context : PyVal) (num_instances : Nat) :
    List (List (PyVal × PyVal)) :=
  (to_list context).map (fun cxt_ => inner_2_pairs .vnone cxt_ num_instances)

/-- The per-task descriptor lists of `_inner_4` (`parallel.py` lines
110-129).  With `explode` the comprehension iterates instructions in the
outer loop and contexts in the inner loop; without it the two coerced
lists are combined positionally with `zip` (which truncates to the
shorter list). -/
def inner_4_tasks (instruction context : PyVal) (num_instances : Nat)
    (explode : Bool) : List (List (PyVal × PyVal)) :=
  if explode then
    (to_list instruction).flatMap
      (fun ins_ => (to_list context).map
        (fun cxt_ => inner_2_pairs ins_ cxt_ num_instances))
  else
    ((to_list instruction).zip (to_list context)).map
      (fun p => inner_2_pairs p.1 p.2 num_instances)

/-- The flat ordered list of `(ins_, cxt_)` descriptor pairs the dispatch
runs, following `_parallel_chat`'s case analysis on the lengths of the
coerced instruction and context lists (`parallel.py` lines 131-151).
`asyncio` gathering preserves task order and `convert.to_list` flattens
the one level of per-task nesting, so the aggregated result order is the
order of this list.  `none` models the fall-through when no case
matches (an empty coerced list): the Python function returns `None`. -/
def plannedPairs (instruction context : PyVal) (num_instances : Nat)
    (explode : Bool) : Option (List (PyVal × PyVal)) :=
  let ins := to_list instruction
  let cxts := to_list context
  if ins.length = 1 then
    if cxts.length = 1 then
      some (inner_2_pairs .vnone .vnone num_instances)
    else if cxts.length > 1 then
      some (inner_3_b_tasks context num_instances).flatten
    else none
  else if ins.length > 1 then
    if cxts.length = 1 then
      some (inner_3_tasks instruction num_instances).flatten
    else if cxts.length > 1 then
      some (inner_4_tasks instruction context num_instances explode).flatten
    else none
  else none

/-- The attribute environment of a `ParallelUnit` object: the names of
the attributes assigned on `self`.  Attribute access on a name outside
this list raises `AttributeError` in Python. -/
structure ParallelUnitObj where
  attrs : List String

/-- The initializer `ParallelUnit.__init__` (`parallel.py` lines 15-26) assigns
`self.branch` (it stores the session argument there), `self.imodel`
(assigned in both arms of the conditional), `self.form_template` and
`self.validator`.  It never assigns `self.session`. -/
def ParallelUnit.initObj : ParallelUnitObj :=
  ⟨["branch", "imodel", "form_template", "validator"]⟩

/-- A hypothetical unit on which the attribute `session` is also bound,
used to examine the dispatch logic downstream of the attribute lookup
that every real instance fails. -/
def ParallelUnit.sessionObj : ParallelUnitObj :=
  ⟨["branch", "imodel", "form_template", "validator", "session"]⟩

/-- Dispatch-wide state: the next fresh branch id (real branch ids are
fresh unique strings; we model freshness with consecutive naturals) and
the insertion-ordered list of keys written to the `branches` registry
(`branches[branch_.id_] = branch_`, `parallel.py` line 80). -/
structure DispatchState where
  nextId : Nat
  registryWrites : List Nat

/-- The value one `_inner` task returns (`parallel.py` lines 69-90): the
branch chat is invoked with `ins_ or instruction` and `cxt_ or context`
(lines 70-71); with `include_mapping` the task returns the dict built at
lines 82-87, whose fourth key is the `default_key` parameter, otherwise
the raw chat result.  `chat` abstracts the external `Branch.chat`
collaborator as a function of the invoked instruction, the invoked
context and the branch id. -/
def innerRecord (chat : PyVal → PyVal → Nat → PyVal)
    (instruction context : PyVal) (include_mapping : Bool)
    (default_key : String) (p : PyVal × PyVal) (bid : Nat) : PyVal :=
  let ins := pyOr p.1 instruction
  let cxt := pyOr p.2 context
  let res := chat ins cxt bid
  if include_mapping then
    .vdict [("instruction", ins), ("context", cxt),
            ("branch_id", .vint bid), (default_key, res)]
  else res

/-- One `_inner` task as a state transformer (`parallel.py` lines
54-90).  Building the `Branch` (lines 56-62) reads
`self.session.default_branch`; when the attribute `session` is absent the
task fails with an `AttributeError` before any chat call, registry write
or result.  Otherwise a fresh branch id is drawn, the chat runs, the
branch is registered under its id and the task's value is returned. -/
def innerRun (self : ParallelUnitObj) (chat : PyVal → PyVal → Nat → PyVal)
    (instruction context : PyVal) (include_mapping : Bool)
    (default_key : String) (ins_ cxt_ : PyVal) (st : DispatchState) :
    Except String (PyVal × DispatchState) :=
  if "session" ∈ self.attrs then
    .ok (innerRecord chat instruction context include_mapping default_key
           (ins_, cxt_) st.nextId,
         ⟨st.nextId + 1, st.registryWrites ++ [st.nextId]⟩)
  else
    .error "AttributeError: session"

/-- Runs the `_inner` task of every planned descriptor pair in gather
order, threading the fresh-id/registry state; the first failing task's
error propagates out of the gather. -/
def runInners (self : ParallelUnitObj) (chat : PyVal → PyVal → Nat → PyVal)
    (instruction context : PyVal) (include_mapping : Bool)
    (default_key : String) :
    List (PyVal × PyVal) → DispatchState →
    Except String (List PyVal × DispatchState)
  | [], st => .ok ([], st)
  | p :: ps, st =>
    match innerRun self chat instruction context include_mapping default_key
        p.1 p.2 st with
    | .error e => .error e
    | .ok (r, st') =>
      match runInners self chat instruction context include_mapping
          default_key ps st' with
      | .error e => .error e
      | .ok (rs, st'') => .ok (r :: rs, st'')

/-- The dispatcher `ParallelUnit._parallel_chat` (`parallel.py` lines 33-151).  The case
analysis on the coerced instruction/context lengths picks the plan; each
matched case awaits its tasks and then evaluates
`self.session.branches.update(branches)` — a second read of the unbound
attribute `session` (lines 134, 139, 145, 150).  When no case matches
the function returns Python `None` (modelled `Option.none`) without
touching `self.session`. -/
def parallelChat (self : ParallelUnitObj) (chat : PyVal → PyVal → Nat → PyVal)
    (instruction context : PyVal) (num_instances : Nat)
    (explode include_mapping : Bool) (default_key : String)
    (st0 : DispatchState) :
    Except String (Option (List PyVal) × DispatchState) :=
  match plannedPairs instruction context num_instances explode with
  | none => .ok (none, st0)
  | some pairs =>
    match runInners self chat instruction context include_mapping
        default_key pairs st0 with
    | .error e => .error e
    | .ok (rs, st) =>
      if "session" ∈ self.attrs then .ok (some rs, st)
      else .error "AttributeError: session"

/-- Closed form of the results of a successful run: one record per
descriptor pair, branch ids consecutive from the given base. -/
def recordsFrom (chat : PyVal → PyVal → Nat → PyVal)
    (instruction context : PyVal) (include_mapping : Bool)
    (default_key : String) :
    List (PyVal × PyVal) → Nat → List PyVal
  | [], _ => []
  | p :: ps, bid =>
    innerRecord chat instruction context include_mapping default_key p bid ::
      recordsFrom chat instruction context include_mapping default_key ps
        (bid + 1)

/-- The consecutive branch ids drawn by a run of `n` tasks starting at
`s`. -/
def idsFrom : Nat → Nat → List Nat
  | _, 0 => []
  | s, n + 1 => s :: idsFrom (s + 1) n

/-- The keys of a modelled Python dict (empty for non-dicts). -/
def dictKeys : PyVal → List String
  | .vdict es => es.map Prod.fst
  | _ => []

/-- A concrete chat collaborator used to evaluate the model on concrete
inputs: it answers with its own branch id. -/
def chatDemo : PyVal → PyVal → Nat → PyVal :=
  fun _ _ bid => .vint bid

/-- The three cooperative stop flags of one orchestrator instance:
`Structure.execute_stop`, `Executable.execute_stop` and the router's
(`MailManager.execute_stop`). -/
structure AgentFlags where
  structure_stop : Bool
  executable_stop : Bool
  mail_stop : Bool

/-- Modelled from the spec: the Structure and Executable collaborators
(their executors are not under `src/`) each run until internally
exhausted and then set their own stop flag true (§6); the supervisor then
sets the router's flag true and the router loop exits.  Hence when the
four jointly launched tasks have all completed, all three flags are
true, whatever they were at entry. -/
def runCycleFlags (_f : AgentFlags) : AgentFlags :=
  ⟨true, true, true⟩

/-- Modelled from the spec: a collaborator's stop flag "requests loop
exit" (§3), so a cycle performs its work only when all three flags start
false; a true flag at entry makes that component quit immediately. -/
def cycleFresh (f : AgentFlags) : Bool :=
  !f.structure_stop && !f.executable_stop && !f.mail_stop

/-- The effect of `BaseAgent.execute` (`base_agent.py` lines 54-84) on
the stop flags: the four tasks run to joint completion, then lines 79-81
assign `False` to `structure.execute_stop`, `executable.execute_stop`
and `mail_manager.execute_stop` before the method returns. -/
def BaseAgent.executeFlags (f : AgentFlags) : AgentFlags :=
  let f1 := runCycleFlags f
  { f1 with structure_stop := false, executable_stop := false,
            mail_stop := false }

/-- The effect of the legacy `Agent.execute` (`core/Agent/Agent.py`
lines 48-65) on the stop flags: the four tasks run to joint completion
and the method returns with no reset — no assignment to any
`execute_stop` appears in its body. -/
def Agent.executeFlags (f : AgentFlags) : AgentFlags :=
  runCycleFlags f

/-- The supervisor `mail_manager_control` (`base_agent.py` lines 43-52 and
`core/Agent/Agent.py` lines 43-46) run against a finite trace of polls,
each poll observing `(structure.execute_stop, executable.execute_stop)`.
The loop keeps sleeping while `not s or not e`; on the first poll with
both flags true it falls out and sets the router's stop flag.  `some k`
means the flag was set right after poll `k`; `none` means the trace
ended with the loop still polling and the flag never set. -/
def mail_manager_control_trace : List (Bool × Bool) → Option Nat
  | [] => none
  | (s, e) :: rest =>
    if !s || !e then (mail_manager_control_trace rest).map (· + 1)
    else some 0

/-- Modelled from the spec: `BaseMail` (`core/mail/schema`, not under `src/`, constructed at
`core/Agent/Agent.py` lines 19-24): sender, recipient, category tag and
the package payload. -/
structure BaseMail where
  sender_id : String
  recipient_id : String
  category : String
  package : List (String × PyVal)

/-- The `Start` trigger node (`core/Agent/Agent.py` lines 11-25): its
own id and its outbound queue `pending_outs`. -/
structure StartObj where
  id_ : String
  pending_outs : List BaseMail

/-- The trigger `Start.trigger` (`core/Agent/Agent.py` lines 17-25): builds one
`BaseMail` with category `"start"`, package
`{"context": context, "structure_id": structure_id}`, recipient
`executable_id` and the trigger's own id as sender, and appends it to the
trigger's own outbound queue. -/
def Start.trigger (s : StartObj) (context : PyVal)
    (structure_id executable_id : String) : StartObj :=
  { s with pending_outs := s.pending_outs ++
      [⟨s.id_, executable_id, "start",
        [("context", context), ("structure_id", .vstr structure_id)]⟩] }

/-- The effect of one `Agent.execute` cycle on the start trigger's
outbound queue (`core/Agent/Agent.py` lines 48-53): `execute` calls
`self.start.trigger` exactly once, with the structure's and the
executable's ids. -/
def Agent.executeStart (start : StartObj) (context : PyVal)
    (structure_id executable_id : String) : StartObj :=
  Start.trigger start context structure_id executable_id

/-! ### Helper lemmas -/

theorem replicate_getD_eq {α : Type} (r kk : Nat) (x d : α) (hk : kk < r) :
    (List.replicate r x).getD kk d = x := by
  simp [List.getD_eq_getElem?_getD, List.getElem?_replicate, hk]

theorem rep_flatten_length {α : Type} (r : Nat) :
    ∀ L : List α, ((L.map (List.replicate r)).flatten).length = L.length * r
  | [] => by simp
  | x :: L => by
    simp only [List.map_cons, List.flatten_cons, List.length_append,
      List.length_replicate, List.length_cons, rep_flatten_length r L]
    ring

theorem rep_flatten_getD {α : Type} (r : Nat) (d : α) :
    ∀ (L : List α) (jj kk : Nat), jj < L.length → kk < r →
    ((L.map (List.replicate r)).flatten).getD (jj * r + kk) d = L.getD jj d
  | x :: L, 0, kk, _, hk => by
    simp only [List.map_cons, List.flatten_cons, Nat.zero_mul, Nat.zero_add]
    rw [List.getD_append _ _ _ _ (by simpa using hk)]
    simp [List.getD_eq_getElem?_getD, List.getElem?_replicate, hk]
  | x :: L, jj + 1, kk, hj, hk => by
    simp only [List.map_cons, List.flatten_cons]
    rw [List.getD_append_right _ _ _ _ (by
      simp only [List.length_replicate]
      calc r ≤ (jj + 1) * r := by nlinarith
        _ ≤ (jj + 1) * r + kk := by omega)]
    have harith : (jj + 1) * r + kk - (List.replicate r x).length = jj * r + kk := by
      simp only [List.length_replicate]; ring_nf; omega
    rw [harith]
    simpa using rep_flatten_getD r d L jj kk (by simpa using hj) hk

theorem cross_length :
    ∀ I C : List PyVal,
      (I.flatMap (fun i_ => C.map (fun c_ => (i_, c_)))).length =
        I.length * C.length
  | [], _ => by simp
  | i0 :: I, C => by
    simp only [List.flatMap_cons, List.length_append, List.length_map,
      List.length_cons, cross_length I C]
    ring

theorem cross_getD (C : List PyVal) :
    ∀ (I : List PyVal) (ii jj : Nat), ii < I.length → jj < C.length →
    (I.flatMap (fun i_ => C.map (fun c_ => (i_, c_)))).getD
        (ii * C.length + jj) (.vnone, .vnone) =
      (I.getD ii .vnone, C.getD jj .vnone)
  | i0 :: I, 0, jj, _, hj => by
    simp only [List.flatMap_cons, Nat.zero_mul, Nat.zero_add]
    rw [List.getD_append _ _ _ _ (by simpa using hj)]
    simp only [List.getD_eq_getElem?_getD, List.getElem?_map]
    rw [List.getElem?_eq_getElem hj]
    simp
  | i0 :: I, ii + 1, jj, hi, hj => by
    simp only [List.flatMap_cons]
    rw [List.getD_append_right _ _ _ _ (by
      simp only [List.length_map]
      calc C.length ≤ (ii + 1) * C.length := by nlinarith
        _ ≤ (ii + 1) * C.length + jj := by omega)]
    have harith : (ii + 1) * C.length + jj - (C.map fun c_ => (i0, c_)).length =
        ii * C.length + jj := by
      simp only [List.length_map]; ring_nf; omega
    rw [harith]
    simpa using cross_getD C I ii jj (by simpa using hi) hj

theorem zip_getD :
    ∀ (I C : List PyVal) (jj : Nat), jj < I.length → jj < C.length →
    (I.zip C).getD jj (.vnone, .vnone) = (I.getD jj .vnone, C.getD jj .vnone)
  | i0 :: I, c0 :: C, 0, _, _ => by simp [List.getD]
  | i0 :: I, c0 :: C, jj + 1, hi, hc => by
    simpa using zip_getD I C jj (by simpa using hi) (by simpa using hc)

theorem recordsFrom_length (chat : PyVal → PyVal → Nat → PyVal)
    (instruction context : PyVal) (im : Bool) (dk : String) :
    ∀ (pairs : List (PyVal × PyVal)) (s : Nat),
    (recordsFrom chat instruction context im dk pairs s).length = pairs.length
  | [], _ => rfl
  | _ :: ps, s => by
    simpa [recordsFrom] using
      recordsFrom_length chat instruction context im dk ps (s + 1)

theorem recordsFrom_getD (chat : PyVal → PyVal → Nat → PyVal)
    (instruction context : PyVal) (im : Bool) (dk : String) :
    ∀ (pairs : List (PyVal × PyVal)) (s k : Nat), k < pairs.length →
    (recordsFrom chat instruction context im dk pairs s).getD k .vnone =
      innerRecord chat instruction context im dk
        (pairs.getD k (.vnone, .vnone)) (s + k)
  | p :: ps, s, 0, _ => by simp [recordsFrom, List.getD]
  | p :: ps, s, k + 1, hk => by
    have ih := recordsFrom_getD chat instruction context im dk ps (s + 1) k
      (by simpa using hk)
    simpa [recordsFrom, Nat.add_assoc, Nat.add_comm 1 k] using ih

theorem idsFrom_length : ∀ (s n : Nat), (idsFrom s n).length = n
  | _, 0 => rfl
  | s, n + 1 => by simpa [idsFrom] using idsFrom_length (s + 1) n

theorem mem_idsFrom : ∀ (s n m : Nat), m ∈ idsFrom s n → s ≤ m ∧ m < s + n
  | s, n + 1, m, h => by
    rcases List.mem_cons.mp h with h | h
    · omega
    · have := mem_idsFrom (s + 1) n m h
      omega

theorem idsFrom_nodup : ∀ (s n : Nat), (idsFrom s n).Nodup
  | _, 0 => List.nodup_nil
  | s, n + 1 => by
    refine List.nodup_cons.mpr ⟨fun h => ?_, idsFrom_nodup (s + 1) n⟩
    have := mem_idsFrom (s + 1) n s h
    omega

theorem runInners_ok (self : ParallelUnitObj)
    (chat : PyVal → PyVal → Nat → PyVal) (instruction context : PyVal)
    (im : Bool) (dk : String) (hs : "session" ∈ self.attrs) :
    ∀ (pairs : List (PyVal × PyVal)) (st : DispatchState),
    runInners self chat instruction context im dk pairs st =
      .ok (recordsFrom chat instruction context im dk pairs st.nextId,
        ⟨st.nextId + pairs.length,
         st.registryWrites ++ idsFrom st.nextId pairs.length⟩)
  | [], st => by simp [runInners, recordsFrom, idsFrom]
  | p :: ps, st => by
    have ih := runInners_ok self chat instruction context im dk hs ps
      ⟨st.nextId + 1, st.registryWrites ++ [st.nextId]⟩
    simp only [runInners, innerRun, if_pos hs, ih, recordsFrom, idsFrom,
      List.length_cons]
    refine congrArg _ (congrArg _ ?_)
    refine congrArg₂ _ (by omega) ?_
    simp [List.append_assoc, idsFrom]

theorem runInners_err (self : ParallelUnitObj)
    (chat : PyVal → PyVal → Nat → PyVal) (instruction context : PyVal)
    (im : Bool) (dk : String) (hs : "session" ∉ self.attrs)
    (p : PyVal × PyVal) (ps : List (PyVal × PyVal)) (st : DispatchState) :
    runInners self chat instruction context im dk (p :: ps) st =
      .error "AttributeError: session" := by
  simp [runInners, innerRun, if_neg hs]

theorem parallelChat_ok (self : ParallelUnitObj)
    (chat : PyVal → PyVal → Nat → PyVal) (instruction context : PyVal)
    (n : Nat) (explode im : Bool) (dk : String) (st0 : DispatchState)
    (pairs : List (PyVal × PyVal)) (hs : "session" ∈ self.attrs)
    (hp : plannedPairs instruction context n explode = some pairs) :
    parallelChat self chat instruction context n explode im dk st0 =
      .ok (some (recordsFrom chat instruction context im dk pairs st0.nextId),
        ⟨st0.nextId + pairs.length,
         st0.registryWrites ++ idsFrom st0.nextId pairs.length⟩) := by
  simp [parallelChat, hp, runInners_ok self chat instruction context im dk hs,
    if_pos hs]

theorem parallelChat_err (self : ParallelUnitObj)
    (chat : PyVal → PyVal → Nat → PyVal) (instruction context : PyVal)
    (n : Nat) (explode im : Bool) (dk : String) (st0 : DispatchState)
    (pairs : List (PyVal × PyVal)) (hs : "session" ∉ self.attrs)
    (hp : plannedPairs instruction context n explode = some pairs) :
    parallelChat self chat instruction context n explode im dk st0 =
      .error "AttributeError: session" := by
  match pairs with
  | [] => simp [parallelChat, hp, runInners, if_neg hs]
  | p :: ps =>
    simp [parallelChat, hp,
      runInners_err self chat instruction context im dk hs p ps st0]

/-! ### Claim theorems -/

/-- C1 (amended): on a `ParallelUnit` built by the real initializer
(which assigns `self.branch`, never `self.session`), every call to
`_parallel_chat` whose coerced instruction/context shapes select one of
the four dispatch cases fails with an attribute-access error on
`self.session` before any branch result is produced; the error is the
whole outcome, no partial results exist. -/
theorem C1_thm (chat : PyVal → PyVal → Nat → PyVal)
    (instruction context : PyVal) (n : Nat) (explode im : Bool)
    (dk : String) (st0 : DispatchState) (pairs : List (PyVal × PyVal))
    (hp : plannedPairs instruction context n explode = some pairs) :
    parallelChat ParallelUnit.initObj chat instruction context n explode im
      dk st0 = .error "AttributeError: session" :=
  parallelChat_err ParallelUnit.initObj chat instruction context n explode im
    dk st0 pairs (by decide) hp

/-- C1 witness: the single-instruction/single-context dispatch case is
selected and the call fails with the attribute error. -/
theorem C1_wit :
    plannedPairs (.vstr "a") (.vstr "x") 1 false = some [(.vnone, .vnone)] ∧
    parallelChat ParallelUnit.initObj chatDemo (.vstr "a") (.vstr "x") 1
      false true "response" ⟨0, []⟩ = .error "AttributeError: session" :=
  ⟨rfl, C1_thm chatDemo (.vstr "a") (.vstr "x") 1 false true "response"
    ⟨0, []⟩ [(.vnone, .vnone)] rfl⟩

/-- C1 counterexample to the claim as stated: a call whose instruction
argument coerces to the empty sequence selects no dispatch case, never
reads `self.session`, and returns `None` without any attribute-access
error — so not every call fails. -/
theorem C1_cex :
    parallelChat ParallelUnit.initObj chatDemo (.vlist []) (.vstr "x") 1
      false true "response" ⟨0, []⟩ = .ok (none, ⟨0, []⟩) := rfl

/-- C2 (amended): a dispatch call whose instruction (or context)
argument converts to an empty sequence raises no error at all — in
particular no `ExpansionError`, which does not exist in the code — and
launches no branch: it falls through every dispatch case and returns
`None` with the state untouched. -/
theorem C2_thm (self : ParallelUnitObj) (chat : PyVal → PyVal → Nat → PyVal)
    (instruction context : PyVal) (n : Nat) (explode im : Bool)
    (dk : String) (st0 : DispatchState)
    (h : to_list instruction = [] ∨ to_list context = []) :
    parallelChat self chat instruction context n explode im dk st0 =
      .ok (none, st0) := by
  have hp : plannedPairs instruction context n explode = none := by
    rcases h with h | h <;> simp [plannedPairs, h]
  simp [parallelChat, hp]

/-- C2 witness: the empty-instruction dispatch returns `None`, raising
nothing and launching no branch. -/
theorem C2_wit :
    (to_list (.vlist []) = ([] : List PyVal) ∨
      to_list (.vstr "x") = ([] : List PyVal)) ∧
    parallelChat ParallelUnit.sessionObj chatDemo (.vlist []) (.vstr "x") 1
      false true "response" ⟨0, []⟩ = .ok (none, ⟨0, []⟩) :=
  ⟨Or.inl rfl, C2_thm ParallelUnit.sessionObj chatDemo (.vlist [])
    (.vstr "x") 1 false true "response" ⟨0, []⟩ (Or.inl rfl)⟩

/-- C2 counterexample to the claim as stated: with an empty instruction
sequence the dispatcher does not fail with `ExpansionError` (or any
error); it completes normally, returning `None`. -/
theorem C2_cex :
    parallelChat ParallelUnit.sessionObj chatDemo (.vlist []) (.vstr "x") 1
      false true "response" ⟨0, []⟩ = .ok (none, ⟨0, []⟩) := rfl

/-- C9: dispatch with a single instruction, a single context and
`num_instances = 3` on a really-initialized `ParallelUnit` does not
produce 3 results referencing distinct registered branch ids — it fails
with the attribute-access error of the `self.branch`/`self.session`
slip before any result or registry write. -/
theorem C9_thm :
    parallelChat ParallelUnit.initObj chatDemo (.vstr "a") (.vstr "x") 3
      false true "response" ⟨0, []⟩ = .error "AttributeError: session" := rfl

theorem inner_4_explode_flatten (instruction context : PyVal) (r : Nat) :
    (inner_4_tasks instruction context r true).flatten =
      (((to_list instruction).flatMap
        (fun i_ => (to_list context).map (fun c_ => (i_, c_)))).map
          (List.replicate r)).flatten := by
  simp [inner_4_tasks, inner_2_pairs, List.map_flatMap, List.map_map,
    Function.comp_def]

theorem inner_4_zip_flatten (instruction context : PyVal) (r : Nat) :
    (inner_4_tasks instruction context r false).flatten =
      (((to_list instruction).zip (to_list context)).map
        (List.replicate r)).flatten := by
  simp [inner_4_tasks, inner_2_pairs]

/-- C3: with instruction and context sequences of lengths `m > 1` and
`n > 1` and `explode = true`, the dispatch plan is the full cross
product: `m * n * r` descriptor pairs (for replica count `r`), and the
descriptor at index `(ii * n + jj) * r + kk` pairs the `ii`-th
instruction with the `jj`-th context — instruction-major, context-minor
order, each pair expanded by replica index. -/
theorem C3_thm (instruction context : PyVal) (r : Nat)
    (hm : 1 < (to_list instruction).length)
    (hn : 1 < (to_list context).length) :
    ∃ pairs, plannedPairs instruction context r true = some pairs ∧
      pairs.length =
        (to_list instruction).length * (to_list context).length * r ∧
      ∀ ii jj kk, ii < (to_list instruction).length →
        jj < (to_list context).length → kk < r →
        pairs.getD ((ii * (to_list context).length + jj) * r + kk)
            (.vnone, .vnone) =
          ((to_list instruction).getD ii .vnone,
           (to_list context).getD jj .vnone) := by
  refine ⟨(inner_4_tasks instruction context r true).flatten, ?_, ?_, ?_⟩
  · simp only [plannedPairs]
    rw [if_neg (by omega), if_pos hm, if_neg (by omega), if_pos hn]
  · rw [inner_4_explode_flatten, rep_flatten_length, cross_length]
  · intro ii jj kk hi hj hk
    rw [inner_4_explode_flatten]
    have hq : ii * (to_list context).length + jj <
        ((to_list instruction).flatMap
          (fun i_ => (to_list context).map (fun c_ => (i_, c_)))).length := by
      rw [cross_length]
      calc ii * (to_list context).length + jj
          < ii * (to_list context).length + (to_list context).length := by
            omega
        _ = (ii + 1) * (to_list context).length := by ring
        _ ≤ (to_list instruction).length * (to_list context).length :=
            Nat.mul_le_mul_right _ hi
    rw [rep_flatten_getD r (PyVal.vnone, PyVal.vnone) _
      (ii * (to_list context).length + jj) kk hq hk]
    exact cross_getD (to_list context) (to_list instruction) ii jj hi hj

/-- C3 witness: `instruction=["a","b"]`, `context=["x","y"]`, replica
count 1 yields the four pairs in instruction-major order. -/
theorem C3_wit :
    plannedPairs (.vlist [.vstr "a", .vstr "b"])
        (.vlist [.vstr "x", .vstr "y"]) 1 true =
      some [(.vstr "a", .vstr "x"), (.vstr "a", .vstr "y"),
            (.vstr "b", .vstr "x"), (.vstr "b", .vstr "y")] ∧
    (1 < (to_list (.vlist [.vstr "a", .vstr "b"])).length ∧
     1 < (to_list (.vlist [.vstr "x", .vstr "y"])).length) ∧
    (∃ pairs, plannedPairs (.vlist [.vstr "a", .vstr "b"])
        (.vlist [.vstr "x", .vstr "y"]) 1 true = some pairs ∧
      pairs.length = (to_list (.vlist [.vstr "a", .vstr "b"])).length *
        (to_list (.vlist [.vstr "x", .vstr "y"])).length * 1 ∧
      ∀ ii jj kk, ii < (to_list (.vlist [.vstr "a", .vstr "b"])).length →
        jj < (to_list (.vlist [.vstr "x", .vstr "y"])).length → kk < 1 →
        pairs.getD ((ii * (to_list (.vlist [.vstr "x", .vstr "y"])).length
            + jj) * 1 + kk) (.vnone, .vnone) =
          ((to_list (.vlist [.vstr "a", .vstr "b"])).getD ii .vnone,
           (to_list (.vlist [.vstr "x", .vstr "y"])).getD jj .vnone)) :=
  ⟨rfl, ⟨by decide, by decide⟩,
    C3_thm (.vlist [.vstr "a", .vstr "b"]) (.vlist [.vstr "x", .vstr "y"])
      1 (by decide) (by decide)⟩

/-- C4: with instruction and context sequences of lengths `m > 1` and
`n > 1` and `explode = false`, the dispatch plan pairs instructions and
contexts element-wise by position, truncated to `min m n` pairs, each
expanded by replica index: `min m n * r` descriptors, the one at index
`jj * r + kk` pairing the `jj`-th instruction with the `jj`-th
context. -/
theorem C4_thm (instruction context : PyVal) (r : Nat)
    (hm : 1 < (to_list instruction).length)
    (hn : 1 < (to_list context).length) :
    ∃ pairs, plannedPairs instruction context r false = some pairs ∧
      pairs.length =
        min (to_list instruction).length (to_list context).length * r ∧
      ∀ jj kk,
        jj < min (to_list instruction).length (to_list context).length →
        kk < r →
        pairs.getD (jj * r + kk) (.vnone, .vnone) =
          ((to_list instruction).getD jj .vnone,
           (to_list context).getD jj .vnone) := by
  refine ⟨(inner_4_tasks instruction context r false).flatten, ?_, ?_, ?_⟩
  · simp only [plannedPairs]
    rw [if_neg (by omega), if_pos hm, if_neg (by omega), if_pos hn]
  · rw [inner_4_zip_flatten, rep_flatten_length, List.length_zip]
  · intro jj kk hj hk
    rw [inner_4_zip_flatten]
    have hq : jj < ((to_list instruction).zip (to_list context)).length := by
      rw [List.length_zip]; omega
    rw [rep_flatten_getD r (PyVal.vnone, PyVal.vnone) _ jj kk hq hk]
    exact zip_getD (to_list instruction) (to_list context) jj
      (by omega) (by omega)

/-- C4 witness: `instruction=["a","b"]`, `context=["x","y"]`, replica
count 1, `explode=false` yields the two zipped pairs. -/
theorem C4_wit :
    plannedPairs (.vlist [.vstr "a", .vstr "b"])
        (.vlist [.vstr "x", .vstr "y"]) 1 false =
      some [(.vstr "a", .vstr "x"), (.vstr "b", .vstr "y")] ∧
    (1 < (to_list (.vlist [.vstr "a", .vstr "b"])).length ∧
     1 < (to_list (.vlist [.vstr "x", .vstr "y"])).length) ∧
    (∃ pairs, plannedPairs (.vlist [.vstr "a", .vstr "b"])
        (.vlist [.vstr "x", .vstr "y"]) 1 false = some pairs ∧
      pairs.length = min (to_list (.vlist [.vstr "a", .vstr "b"])).length
        (to_list (.vlist [.vstr "x", .vstr "y"])).length * 1 ∧
      ∀ jj kk, jj < min (to_list (.vlist [.vstr "a", .vstr "b"])).length
          (to_list (.vlist [.vstr "x", .vstr "y"])).length → kk < 1 →
        pairs.getD (jj * 1 + kk) (.vnone, .vnone) =
          ((to_list (.vlist [.vstr "a", .vstr "b"])).getD jj .vnone,
           (to_list (.vlist [.vstr "x", .vstr "y"])).getD jj .vnone)) :=
  ⟨rfl, ⟨by decide, by decide⟩,
    C4_thm (.vlist [.vstr "a", .vstr "b"]) (.vlist [.vstr "x", .vstr "y"])
      1 (by decide) (by decide)⟩

/-- C8 (amended): on a unit whose `session` attribute is bound, each
aggregated entry is the raw branch output when mapping is not requested;
when `include_mapping` is requested it is a dict with exactly the four
keys `instruction`, `context`, `branch_id` and the caller-chosen
`default_key` (default `"response"`), where instruction and context are
the values the branch chat was invoked with and `branch_id` is the id of
the branch that produced the entry. -/
theorem C8_thm (self : ParallelUnitObj) (chat : PyVal → PyVal → Nat → PyVal)
    (instruction context : PyVal) (n : Nat) (explode im : Bool)
    (dk : String) (st0 : DispatchState) (pairs : List (PyVal × PyVal))
    (k : Nat) (hs : "session" ∈ self.attrs)
    (hp : plannedPairs instruction context n explode = some pairs)
    (hk : k < pairs.length) :
    ∃ rs st',
      parallelChat self chat instruction context n explode im dk st0 =
        .ok (some rs, st') ∧
      rs.length = pairs.length ∧
      (im = true →
        rs.getD k .vnone = .vdict [
          ("instruction", pyOr (pairs.getD k (.vnone, .vnone)).1 instruction),
          ("context", pyOr (pairs.getD k (.vnone, .vnone)).2 context),
          ("branch_id", .vint (st0.nextId + k)),
          (dk, chat (pyOr (pairs.getD k (.vnone, .vnone)).1 instruction)
            (pyOr (pairs.getD k (.vnone, .vnone)).2 context)
            (st0.nextId + k))] ∧
        dictKeys (rs.getD k .vnone) =
          ["instruction", "context", "branch_id", dk]) ∧
      (im = false →
        rs.getD k .vnone = chat
          (pyOr (pairs.getD k (.vnone, .vnone)).1 instruction)
          (pyOr (pairs.getD k (.vnone, .vnone)).2 context)
          (st0.nextId + k)) := by
  refine ⟨recordsFrom chat instruction context im dk pairs st0.nextId,
    ⟨st0.nextId + pairs.length,
     st0.registryWrites ++ idsFrom st0.nextId pairs.length⟩,
    parallelChat_ok self chat instruction context n explode im dk st0 pairs
      hs hp,
    recordsFrom_length chat instruction context im dk pairs st0.nextId,
    ?_, ?_⟩
  · intro him
    rw [recordsFrom_getD chat instruction context im dk pairs st0.nextId k hk,
      him]
    exact ⟨by simp [innerRecord], by simp [innerRecord, dictKeys]⟩
  · intro him
    rw [recordsFrom_getD chat instruction context im dk pairs st0.nextId k hk,
      him]
    simp [innerRecord]

/-- C8 witness: a single-slot mapped dispatch on a session-bearing unit
produces the described record. -/
theorem C8_wit :
    ("session" ∈ ParallelUnit.sessionObj.attrs ∧
     plannedPairs (.vstr "a") (.vstr "x") 1 false =
       some [(.vnone, .vnone)] ∧ 0 < 1) ∧
    (∃ rs st',
      parallelChat ParallelUnit.sessionObj chatDemo (.vstr "a") (.vstr "x")
          1 false true "response" ⟨0, []⟩ = .ok (some rs, st') ∧
      rs.length = [((PyVal.vnone : PyVal), (PyVal.vnone : PyVal))].length ∧
      (true = true →
        rs.getD 0 .vnone = .vdict [
          ("instruction", pyOr ([((PyVal.vnone : PyVal),
            (PyVal.vnone : PyVal))].getD 0 (.vnone, .vnone)).1 (.vstr "a")),
          ("context", pyOr ([((PyVal.vnone : PyVal),
            (PyVal.vnone : PyVal))].getD 0 (.vnone, .vnone)).2 (.vstr "x")),
          ("branch_id", .vint (0 + 0)),
          ("response", chatDemo (pyOr ([((PyVal.vnone : PyVal),
              (PyVal.vnone : PyVal))].getD 0 (.vnone, .vnone)).1 (.vstr "a"))
            (pyOr ([((PyVal.vnone : PyVal),
              (PyVal.vnone : PyVal))].getD 0 (.vnone, .vnone)).2 (.vstr "x"))
            (0 + 0))] ∧
        dictKeys (rs.getD 0 .vnone) =
          ["instruction", "context", "branch_id", "response"]) ∧
      (true = false →
        rs.getD 0 .vnone = chatDemo
          (pyOr ([((PyVal.vnone : PyVal),
            (PyVal.vnone : PyVal))].getD 0 (.vnone, .vnone)).1 (.vstr "a"))
          (pyOr ([((PyVal.vnone : PyVal),
            (PyVal.vnone : PyVal))].getD 0 (.vnone, .vnone)).2 (.vstr "x"))
          (0 + 0))) :=
  ⟨⟨by decide, rfl, by decide⟩,
    C8_thm ParallelUnit.sessionObj chatDemo (.vstr "a") (.vstr "x") 1 false
      true "response" ⟨0, []⟩ [(.vnone, .vnone)] 0 (by decide) rfl
      (by decide)⟩

/-- C8 counterexample to the claim as stated: first, a dispatch on a
really-initialized unit produces no entries at all (it fails with the
attribute error); second, on a session-bearing unit with the default
`default_key`, the mapped record's keys are `instruction`, `context`,
`branch_id`, `response` — there is no field named `result`. -/
theorem C8_cex :
    parallelChat ParallelUnit.initObj chatDemo (.vstr "b") (.vstr "y") 1
      false true "response" ⟨0, []⟩ = .error "AttributeError: session" ∧
    parallelChat ParallelUnit.sessionObj chatDemo (.vstr "b") (.vstr "y") 1
      false true "response" ⟨0, []⟩ =
      .ok (some [.vdict [("instruction", .vstr "b"), ("context", .vstr "y"),
        ("branch_id", .vint 0), ("response", .vint 0)]], ⟨1, [0]⟩) ∧
    dictKeys (.vdict [("instruction", .vstr "b"), ("context", .vstr "y"),
        ("branch_id", .vint 0), ("response", .vint 0)]) ≠
      ["instruction", "context", "branch_id", "result"] :=
  ⟨rfl, rfl, by decide⟩

theorem pyOr_falsy (a b : PyVal) (h : truthy a = false) : pyOr a b = b := by
  simp [pyOr, h]

/-- C10: when a planned descriptor's instruction element is falsy (empty
string, empty list/dict, `None`, zero), the branch for that slot is
invoked with the caller's entire original instruction argument instead of
the element — and symmetrically for a falsy context element — because
the call substitutes `ins_ or instruction` and `cxt_ or context`. -/
theorem C10_thm (self : ParallelUnitObj) (chat : PyVal → PyVal → Nat → PyVal)
    (instruction context : PyVal) (n : Nat) (explode : Bool)
    (dk : String) (st0 : DispatchState) (pairs : List (PyVal × PyVal))
    (k : Nat) (hs : "session" ∈ self.attrs)
    (hp : plannedPairs instruction context n explode = some pairs)
    (hk : k < pairs.length) :
    ∃ rs st',
      parallelChat self chat instruction context n explode true dk st0 =
        .ok (some rs, st') ∧
      (truthy (pairs.getD k (.vnone, .vnone)).1 = false →
        rs.getD k .vnone = .vdict [
          ("instruction", instruction),
          ("context", pyOr (pairs.getD k (.vnone, .vnone)).2 context),
          ("branch_id", .vint (st0.nextId + k)),
          (dk, chat instruction
            (pyOr (pairs.getD k (.vnone, .vnone)).2 context)
            (st0.nextId + k))]) ∧
      (truthy (pairs.getD k (.vnone, .vnone)).2 = false →
        rs.getD k .vnone = .vdict [
          ("instruction", pyOr (pairs.getD k (.vnone, .vnone)).1 instruction),
          ("context", context),
          ("branch_id", .vint (st0.nextId + k)),
          (dk, chat (pyOr (pairs.getD k (.vnone, .vnone)).1 instruction)
            context (st0.nextId + k))]) := by
  refine ⟨recordsFrom chat instruction context true dk pairs st0.nextId,
    ⟨st0.nextId + pairs.length,
     st0.registryWrites ++ idsFrom st0.nextId pairs.length⟩,
    parallelChat_ok self chat instruction context n explode true dk st0 pairs
      hs hp, ?_, ?_⟩
  · intro hfalsy
    rw [recordsFrom_getD chat instruction context true dk pairs st0.nextId k
      hk]
    simp only [innerRecord, if_true]
    rw [pyOr_falsy _ _ hfalsy]
    norm_cast
  · intro hfalsy
    rw [recordsFrom_getD chat instruction context true dk pairs st0.nextId k
      hk]
    simp only [innerRecord, if_true]
    rw [pyOr_falsy _ _ hfalsy]
    norm_cast

/-- C10 witness: `instruction=["a", ""]`, `context=["x","y"]`,
`explode=false` — the second slot's instruction element is the falsy
empty string, so that branch is invoked with the whole list
`["a", ""]` as its instruction. -/
theorem C10_wit :
    ("session" ∈ ParallelUnit.sessionObj.attrs ∧
     plannedPairs (.vlist [.vstr "a", .vstr ""])
         (.vlist [.vstr "x", .vstr "y"]) 1 false =
       some [(.vstr "a", .vstr "x"), (.vstr "", .vstr "y")] ∧
     1 < ([((PyVal.vstr "a" : PyVal), (PyVal.vstr "x" : PyVal)),
       (.vstr "", .vstr "y")] : List (PyVal × PyVal)).length ∧
     truthy (([((PyVal.vstr "a" : PyVal), (PyVal.vstr "x" : PyVal)),
       (.vstr "", .vstr "y")] : List (PyVal × PyVal)).getD 1
         (.vnone, .vnone)).1 = false) ∧
    (∃ rs st',
      parallelChat ParallelUnit.sessionObj chatDemo
          (.vlist [.vstr "a", .vstr ""]) (.vlist [.vstr "x", .vstr "y"]) 1
          false true "response" ⟨0, []⟩ = .ok (some rs, st') ∧
      (truthy (([((PyVal.vstr "a" : PyVal), (PyVal.vstr "x" : PyVal)),
          (.vstr "", .vstr "y")] : List (PyVal × PyVal)).getD 1
            (.vnone, .vnone)).1 = false →
        rs.getD 1 .vnone = .vdict [
          ("instruction", .vlist [.vstr "a", .vstr ""]),
          ("context", pyOr (([((PyVal.vstr "a" : PyVal),
            (PyVal.vstr "x" : PyVal)), (.vstr "", .vstr "y")] :
              List (PyVal × PyVal)).getD 1 (.vnone, .vnone)).2
            (.vlist [.vstr "x", .vstr "y"])),
          ("branch_id", .vint ((0 : Nat) + 1)),
          ("response", chatDemo (.vlist [.vstr "a", .vstr ""])
            (pyOr (([((PyVal.vstr "a" : PyVal), (PyVal.vstr "x" : PyVal)),
              (.vstr "", .vstr "y")] : List (PyVal × PyVal)).getD 1
                (.vnone, .vnone)).2 (.vlist [.vstr "x", .vstr "y"]))
            ((0 : Nat) + 1))]) ∧
      (truthy (([((PyVal.vstr "a" : PyVal), (PyVal.vstr "x" : PyVal)),
          (.vstr "", .vstr "y")] : List (PyVal × PyVal)).getD 1
            (.vnone, .vnone)).2 = false →
        rs.getD 1 .vnone = .vdict [
          ("instruction", pyOr (([((PyVal.vstr "a" : PyVal),
            (PyVal.vstr "x" : PyVal)), (.vstr "", .vstr "y")] :
              List (PyVal × PyVal)).getD 1 (.vnone, .vnone)).1
            (.vlist [.vstr "a", .vstr ""])),
          ("context", .vlist [.vstr "x", .vstr "y"]),
          ("branch_id", .vint ((0 : Nat) + 1)),
          ("response", chatDemo (pyOr (([((PyVal.vstr "a" : PyVal),
              (PyVal.vstr "x" : PyVal)), (.vstr "", .vstr "y")] :
                List (PyVal × PyVal)).getD 1 (.vnone, .vnone)).1
              (.vlist [.vstr "a", .vstr ""]))
            (.vlist [.vstr "x", .vstr "y"]) ((0 : Nat) + 1))])) :=
  ⟨⟨by decide, rfl, by decide, by decide⟩,
    C10_thm ParallelUnit.sessionObj chatDemo (.vlist [.vstr "a", .vstr ""])
      (.vlist [.vstr "x", .vstr "y"]) 1 false "response" ⟨0, []⟩
      [(.vstr "a", .vstr "x"), (.vstr "", .vstr "y")] 1 (by decide) rfl
      (by decide)⟩

/-- C5 (amended): `BaseAgent.execute` resets all three stop flags
(Structure, Executable, Router) to false before returning, so two
consecutive `execute()` cycles on the same instance each start with all
flags fresh and complete. -/
theorem C5_thm (f : AgentFlags) :
    BaseAgent.executeFlags f = ⟨false, false, false⟩ ∧
    cycleFresh (BaseAgent.executeFlags f) = true ∧
    BaseAgent.executeFlags (BaseAgent.executeFlags f) =
      ⟨false, false, false⟩ ∧
    cycleFresh (BaseAgent.executeFlags (BaseAgent.executeFlags f)) = true :=
  ⟨rfl, rfl, rfl, rfl⟩

/-- C5 counterexample to the claim as stated: the legacy core
`Agent.execute` performs no reset — after a cycle starting from fresh
flags, all three stop flags are left true and the next cycle does not
start fresh. -/
theorem C5_cex :
    Agent.executeFlags ⟨false, false, false⟩ = ⟨true, true, true⟩ ∧
    cycleFresh (Agent.executeFlags ⟨false, false, false⟩) = false :=
  ⟨rfl, rfl⟩

theorem mmct_first : ∀ (trace : List (Bool × Bool)) (k : Nat),
    mail_manager_control_trace trace = some k →
    k < trace.length ∧
    ((trace.getD k (false, false)).1 = true ∧
     (trace.getD k (false, false)).2 = true) ∧
    ∀ j, j < k →
      ¬((trace.getD j (false, false)).1 = true ∧
        (trace.getD j (false, false)).2 = true)
  | [], k, h => by simp [mail_manager_control_trace] at h
  | (s, e) :: rest, k, h => by
    rw [mail_manager_control_trace] at h
    by_cases hse : (!s || !e) = true
    · rw [if_pos hse] at h
      cases hmm : mail_manager_control_trace rest with
      | none => rw [hmm] at h; exact absurd h (by simp)
      | some k' =>
        rw [hmm] at h
        simp only [Option.map_some'] at h
        obtain rfl := Option.some.inj h
        have ih := mmct_first rest k' hmm
        refine ⟨by simp only [List.length_cons]; omega, ?_, ?_⟩
        · simpa only [List.getD_cons_succ] using ih.2.1
        · intro j hj
          match j with
          | 0 =>
            simp only [List.getD_cons_zero]
            rcases s <;> rcases e <;> simp_all
          | j' + 1 =>
            simp only [List.getD_cons_succ]
            exact ih.2.2 j' (by omega)
    · rw [if_neg hse] at h
      obtain rfl := Option.some.inj h
      have hse' : s = true ∧ e = true := by
        rcases s <;> rcases e <;> simp_all
      exact ⟨by simp, by simp [hse'.1, hse'.2], by omega⟩

/-- C6: in every execution of the supervisor loop
(`mail_manager_control`), the router's stop flag is set only at the
first poll observing both `Structure.execute_stop` and
`Executable.execute_stop` true: if the flag is set after poll `k`, both
observations at `k` are true and no earlier poll observed both true (so
the flag was never set while either was false). -/
theorem C6_thm (trace : List (Bool × Bool)) (k : Nat)
    (h : mail_manager_control_trace trace = some k) :
    k < trace.length ∧
    ((trace.getD k (false, false)).1 = true ∧
     (trace.getD k (false, false)).2 = true) ∧
    ∀ j, j < k →
      ¬((trace.getD j (false, false)).1 = true ∧
        (trace.getD j (false, false)).2 = true) :=
  mmct_first trace k h

/-- C6 witness: on the poll trace
`[(true,false), (false,false), (true,true)]` the router flag is set
after the third poll (index 2), the first showing both flags true. -/
theorem C6_wit :
    mail_manager_control_trace
        [(true, false), (false, false), (true, true)] = some 2 ∧
    (2 < ([(true, false), (false, false), (true, true)] :
        List (Bool × Bool)).length ∧
     ((([(true, false), (false, false), (true, true)] :
         List (Bool × Bool)).getD 2 (false, false)).1 = true ∧
      (([(true, false), (false, false), (true, true)] :
         List (Bool × Bool)).getD 2 (false, false)).2 = true) ∧
     ∀ j, j < 2 →
       ¬((([(true, false), (false, false), (true, true)] :
           List (Bool × Bool)).getD j (false, false)).1 = true ∧
         (([(true, false), (false, false), (true, true)] :
           List (Bool × Bool)).getD j (false, false)).2 = true)) :=
  ⟨rfl, C6_thm [(true, false), (false, false), (true, true)] 2 rfl⟩

/-- C7: every `Start.trigger(context, structure_id, executable_id)` call
appends exactly one mail to the trigger's own outbound queue, with
category `"start"`, payload `{context, structure_id}`, recipient
`executable_id` and the trigger's own id as sender; `n` iterated calls
append exactly `n` mails, and one `Agent.execute` cycle triggers exactly
once, producing exactly one start mail. -/
theorem C7_thm (s : StartObj) (context : PyVal) (sid eid : String)
    (n : Nat) :
    (Start.trigger s context sid eid).pending_outs =
      s.pending_outs ++ [⟨s.id_, eid, "start",
        [("context", context), ("structure_id", .vstr sid)]⟩] ∧
    (Start.trigger s context sid eid).pending_outs.length =
      s.pending_outs.length + 1 ∧
    ((fun t => Start.trigger t context sid eid)^[n] s).pending_outs.length =
      s.pending_outs.length + n ∧
    (Agent.executeStart s context sid eid).pending_outs.length =
      s.pending_outs.length + 1 := by
  refine ⟨rfl, by simp [Start.trigger], ?_,
    by simp [Agent.executeStart, Start.trigger]⟩
  induction n generalizing s with
  | zero => simp
  | succ m ih =>
    rw [Function.iterate_succ_apply]
    rw [ih (Start.trigger s context sid eid)]
    simp [Start.trigger]
    omega
